import Mathlib

/-!
Verification of the gdocs-mcp document tools.

Shallow embedding of the Google-Docs MCP server's tool handlers
(`src/tools/basic-tools.ts`, `src/tools/content-tools.ts`, `src/resources.ts`,
and `src/tools/formatting-tools.ts`, whose source is embedded in
`src/README.md` after the document separator at line 294).  Tool handlers
are modelled as pure functions from their
parameters and an abstract document store to the ordered trace of store
calls they make together with the tool response; `try/catch` recovery is
modelled by the handlers being total functions into `ToolResponse`.
-/

namespace GDocs

/-! ## Document data model

Mirrors the shape of the Google Docs API objects as the TypeScript code
accesses them (`doc.data.body.content[..].paragraph.elements[..].textRun.content`).
Fields the code guards with truthiness checks are `Option`s. -/

/-- A run of styled text.  `content` is optional in the API; the code checks
`textRun.content` for truthiness before using it (the empty string is falsy
in JavaScript, hence skipped — which never changes a concatenation or a
length sum). -/
structure TextStyle where
  bold : Bool
  italic : Bool
  deriving Repr, DecidableEq

structure TextRun where
  content : Option String
  textStyle : Option TextStyle
  deriving Repr, DecidableEq

/-- One element of a paragraph: its API-supplied start offset (read by
the text search as `textElement.startIndex || 0`) and its text run. -/
structure ParagraphElement where
  startIndex : Option Nat
  textRun : Option TextRun
  deriving Repr, DecidableEq

structure ParagraphStyle where
  namedStyleType : Option String
  deriving Repr, DecidableEq

/-- A paragraph.  The code accesses `paragraph.elements` without a null
check (every paragraph returned by the store carries its element list), so
`elements` is a plain list. -/
structure Paragraph where
  paragraphStyle : Option ParagraphStyle
  elements : List ParagraphElement
  deriving Repr, DecidableEq

structure StructuralElement where
  paragraph : Option Paragraph
  deriving Repr, DecidableEq

/-- The document body; `content` is optional (`doc.data.body.content` is
truth-checked before iteration; note an empty array is truthy in JS, so an
empty `content` list is iterated — yielding nothing). -/
structure Body where
  content : Option (List StructuralElement)
  deriving Repr, DecidableEq

structure Document where
  title : Option String
  body : Option Body
  deriving Repr, DecidableEq

/-- The structural elements the extraction loops iterate over: `[]` when
the body or its content list is absent. -/
def bodyElements (doc : Document) : List StructuralElement :=
  match doc.body with
  | none => []
  | some b => b.content.getD []

/-- The text-run contents of one structural element, in order, as collected
by the nested `forEach` loops (`if (element.paragraph)` then per element
`if (textRun && textRun.content)`); empty contents are skipped by the JS
truthiness check (a no-op for both concatenation and length sums). -/
def elementRunTexts (el : StructuralElement) : List String :=
  match el.paragraph with
  | none => []
  | some p =>
    p.elements.filterMap fun pe =>
      match pe.textRun with
      | none => none
      | some tr =>
        match tr.content with
        | none => none
        | some c => if c = "" then none else some c

/-- All text-run contents of the document in document order. -/
def runTexts (doc : Document) : List String :=
  ((bodyElements doc).map elementRunTexts).flatten

/-- Document length as computed by `update-doc` (basic-tools.ts lines
102–114 and 147–158): start at 1 and add the character length of every
text-run content. -/
def documentLength (doc : Document) : Nat :=
  1 + ((runTexts doc).map String.length).sum

/-- Plain-text extraction as in `read-doc-advanced`'s default text format
(basic-tools.ts lines 418–430) and the `get-doc` resource (resources.ts
lines 93–107): concatenate all text-run contents. -/
def extractText (doc : Document) : String :=
  String.join (runTexts doc)

/-! ## Store and call-trace model

The external document store is an oracle: each call either succeeds or
fails with a message (`Except String`).  A handler returns the ordered
list of store calls it made plus its `ToolResponse`. -/

/-- One request inside a `batchUpdate` body.  The paragraph-style
constructor carries exactly the indent fields `apply-list-style` sets
(`indentStart`, `indentFirstLine`, in points); `updateListProperties` is
the empty request that tool pushes for numbered lists with a custom
starting number. -/
inductive Request where
  | insertText (index : Nat) (text : String)
  | deleteContentRange (startIndex endIndex : Nat)
  | insertPageBreak (index : Nat)
  | updateParagraphStyle (startIndex endIndex indentStart indentFirstLine : Nat)
  | createParagraphBullets (startIndex endIndex : Nat) (preset : String)
  | updateListProperties
  deriving Repr, DecidableEq

/-- One network call to the external store. -/
inductive StoreCall where
  | get (documentId : String)
  | batchUpdate (documentId : String) (requests : List Request)
  | create (title : String)
  deriving Repr, DecidableEq

/-- Behaviour of the external store for one tool invocation.  `createRes`
returns the optional `documentId` of the created document (the handler
throws when it is absent). -/
structure Store where
  getDoc : String → Except String Document
  batch : String → List Request → Except String Unit
  createRes : String → Except String (Option String)

/-- A tool result: the concatenated text content plus the `isError` flag
(absent on success responses, modelled as `false`). -/
structure ToolResponse where
  text : String
  isError : Bool
  deriving Repr, DecidableEq

/-- Error response helper: every `catch` block produces one of these. -/
def errResp (text : String) : ToolResponse := ⟨text, true⟩

def okResp (text : String) : ToolResponse := ⟨text, false⟩

/-! ## Tool handlers (basic-tools.ts, content-tools.ts)

Store failures and `throw new Error(..)` inside the `try` both land in the
`catch` block; a thrown `Error` interpolated with `${error}` stringifies
as `"Error: " ++ message`, while a store failure stands for whatever
`${error}` (or `error.message`) produces for the store's error, modelled
as the abstract message string. -/

/-- Tool `update-doc` (basic-tools.ts lines 80–199).  Both branches first fetch
the document, recompute `documentLength` from the fresh fetch, then submit
one `batchUpdate`: replace-all sends `[deleteContentRange(1, len),
insertText(1, content)]`, append sends `[insertText(len, content)]`. -/
def updateDoc (st : Store) (docId content : String) (replaceAll : Bool) :
    List StoreCall × ToolResponse :=
  if docId = "" then
    ([], errResp "Error updating document: Error: Document ID is required")
  else if replaceAll then
    match st.getDoc docId with
    | .error e => ([.get docId], errResp ("Error updating document: " ++ e))
    | .ok doc =>
      let reqs : List Request :=
        [.deleteContentRange 1 (documentLength doc), .insertText 1 content]
      match st.batch docId reqs with
      | .error e =>
        ([.get docId, .batchUpdate docId reqs],
         errResp ("Error updating document: " ++ e))
      | .ok _ =>
        ([.get docId, .batchUpdate docId reqs],
         okResp ("Document updated successfully!\nDocument ID: " ++ docId))
  else
    match st.getDoc docId with
    | .error e => ([.get docId], errResp ("Error updating document: " ++ e))
    | .ok doc =>
      let reqs : List Request := [.insertText (documentLength doc) content]
      match st.batch docId reqs with
      | .error e =>
        ([.get docId, .batchUpdate docId reqs],
         errResp ("Error updating document: " ++ e))
      | .ok _ =>
        ([.get docId, .batchUpdate docId reqs],
         okResp ("Document updated successfully!\nDocument ID: " ++ docId))

/-- Tool `create-doc` (basic-tools.ts lines 17–77).  Creates the document; if
no document ID comes back it throws; if `content` (defaulted to `""` when
absent) is truthy — i.e. non-empty — it submits one `insertText` at index
1 into the new document. -/
def createDoc (st : Store) (title content : String) :
    List StoreCall × ToolResponse :=
  match st.createRes title with
  | .error e => ([.create title], errResp ("Error creating document: " ++ e))
  | .ok none =>
    ([.create title],
     errResp "Error creating document: Error: Failed to create document - no document ID returned")
  | .ok (some documentId) =>
    if content = "" then
      ([.create title],
       okResp ("Document created successfully!\nTitle: " ++ title ++
         "\nDocument ID: " ++ documentId ++
         "\nYou can now reference this document using: googledocs://" ++ documentId))
    else
      let reqs : List Request := [.insertText 1 content]
      match st.batch documentId reqs with
      | .error e =>
        ([.create title, .batchUpdate documentId reqs],
         errResp ("Error creating document: " ++ e))
      | .ok _ =>
        ([.create title, .batchUpdate documentId reqs],
         okResp ("Document created successfully!\nTitle: " ++ title ++
           "\nDocument ID: " ++ documentId ++
           "\nYou can now reference this document using: googledocs://" ++ documentId))

/-- Tool `delete-range` (content-tools.ts lines 80–127).  `endIndex ≤ startIndex`
throws before any store access; otherwise one `batchUpdate` with a single
`deleteContentRange` is submitted.  The `catch` uses `error.message`, so no
`"Error: "` prefix appears for the thrown validation error. -/
def deleteRange (st : Store) (docId : String) (startIndex endIndex : Nat) :
    List StoreCall × ToolResponse :=
  if endIndex ≤ startIndex then
    ([], errResp "Error deleting range: End index must be greater than start index for deletion")
  else
    let reqs : List Request := [.deleteContentRange startIndex endIndex]
    match st.batch docId reqs with
    | .error e =>
      ([.batchUpdate docId reqs], errResp ("Error deleting range: " ++ e))
    | .ok _ =>
      ([.batchUpdate docId reqs],
       okResp ("Content deleted successfully!\nDocument ID: " ++ docId ++
         "\nRange deleted: " ++ toString startIndex ++ "-" ++ toString endIndex))

/-- Tool `insert-text-at-index` (content-tools.ts lines 33–77): one
`batchUpdate` with a single `insertText`. -/
def insertTextAtIndex (st : Store) (docId textToInsert : String) (index : Nat) :
    List StoreCall × ToolResponse :=
  let reqs : List Request := [.insertText index textToInsert]
  match st.batch docId reqs with
  | .error e =>
    ([.batchUpdate docId reqs], errResp ("Error inserting text: " ++ e))
  | .ok _ =>
    ([.batchUpdate docId reqs],
     okResp ("Text inserted successfully at index " ++ toString index ++
       "!\nDocument ID: " ++ docId ++ "\nText inserted: \x22" ++ textToInsert ++ "\x22"))

/-! ## read-doc-advanced rendering and truncation (basic-tools.ts lines 311–464) -/

/-- Heading prefix of the markdown conversion (lines 358–369).  `parseInt`
on the digits after `HEADING_` is modelled with `String.toNat?` defaulting
to 0 (JavaScript's `'#'.repeat(Math.min(NaN, 6))` also yields the empty
string for a non-numeric suffix). -/
def headingPrefix (styleType : String) : String :=
  if styleType.startsWith "HEADING_" then
    String.mk (List.replicate (min ((styleType.drop 8).toNat?.getD 0) 6) (Char.ofNat 35)) ++ " "
  else if styleType = "TITLE" then "# "
  else if styleType = "SUBTITLE" then "## "
  else ""

/-- Markdown text of one run (lines 372–388): bold/italic wrappers around
the content; a run without (truthy) content contributes nothing. -/
def runMarkdown (pe : ParagraphElement) : String :=
  match pe.textRun with
  | none => ""
  | some tr =>
    match tr.content with
    | none => ""
    | some c =>
      if c = "" then ""
      else
        match tr.textStyle with
        | none => c
        | some style =>
          if style.bold && style.italic then "***" ++ c ++ "***"
          else if style.bold then "**" ++ c ++ "**"
          else if style.italic then "*" ++ c ++ "*"
          else c

/-- Markdown of one structural element (lines 356–392): optional heading
prefix (the `paragraphStyle?.namedStyleType` truthiness check skips an
absent or empty style name), run texts, then `"\n\n"`. -/
def elementMarkdown (el : StructuralElement) : String :=
  match el.paragraph with
  | none => ""
  | some p =>
    (match p.paragraphStyle with
     | none => ""
     | some ps =>
       match ps.namedStyleType with
       | none => ""
       | some st => if st = "" then "" else headingPrefix st) ++
    String.join (p.elements.map runMarkdown) ++ "\n\n"

/-- JavaScript `String.prototype.trim`: strip whitespace from both ends
(written over the character list so it evaluates in the kernel). -/
def jsTrim (s : String) : String :=
  ⟨((s.data.dropWhile Char.isWhitespace).reverse.dropWhile Char.isWhitespace).reverse⟩

/-- The markdown rendering of a document (lines 351–396), ending with the
`.trim()` the source applies before truncation. -/
def markdownRender (doc : Document) : String :=
  jsTrim (String.join ((bodyElements doc).map elementMarkdown))

/-- JavaScript truthiness of the optional numeric `maxLength` parameter:
absent and `0` are falsy (`if (maxLength && ...)`). -/
def jsTruthy : Option Nat → Bool
  | none => false
  | some n => !(n == 0)

/-- JSON-format truncation (lines 329–348), as a function of the rendered
string `jsonContent = JSON.stringify(doc.data, null, 2)`. -/
def jsonFormatOutput (jsonContent : String) (maxLength : Option Nat) : String :=
  if jsTruthy maxLength ∧ maxLength.getD 0 < jsonContent.length then
    jsonContent.take (maxLength.getD 0) ++
      "\n... [JSON truncated: " ++ toString jsonContent.length ++ " total chars]"
  else jsonContent

/-- Markdown-format truncation (lines 396–415), as a function of the
trimmed rendered markdown. -/
def markdownFormatOutput (markdownContent : String) (maxLength : Option Nat) : String :=
  if jsTruthy maxLength ∧ maxLength.getD 0 < markdownContent.length then
    markdownContent.take (maxLength.getD 0) ++
      "\n\n... [Markdown truncated: " ++ toString markdownContent.length ++ " total chars]"
  else markdownContent

/-- Text-format output (lines 432–450), as a function of the extracted
text content. -/
def textFormatOutput (textContent : String) (maxLength : Option Nat) : String :=
  if jsTruthy maxLength ∧ maxLength.getD 0 < textContent.length then
    "Content (truncated to " ++ toString (maxLength.getD 0) ++ " chars of " ++
      toString textContent.length ++ " total):\n---\n" ++
      textContent.take (maxLength.getD 0) ++
      "\n\n... [Document continues for " ++
      toString (textContent.length - maxLength.getD 0) ++ " more characters]"
  else "Content (" ++ toString textContent.length ++ " characters):\n---\n" ++ textContent

/-- Tool `read-doc-advanced` with `format = 'text'`: fetch, extract, truncate. -/
def readDocAdvancedText (st : Store) (docId : String) (maxLength : Option Nat) :
    List StoreCall × ToolResponse :=
  match st.getDoc docId with
  | .error e => ([.get docId], errResp ("Error reading document: " ++ e))
  | .ok doc => ([.get docId], okResp (textFormatOutput (extractText doc) maxLength))

/-- Tool `read-doc-advanced` with `format = 'markdown'`. -/
def readDocAdvancedMarkdown (st : Store) (docId : String) (maxLength : Option Nat) :
    List StoreCall × ToolResponse :=
  match st.getDoc docId with
  | .error e => ([.get docId], errResp ("Error reading document: " ++ e))
  | .ok doc => ([.get docId], okResp (markdownFormatOutput (markdownRender doc) maxLength))

/-! ## The get-doc resource (resources.ts lines 79–126) -/

/-- JavaScript template interpolation of a possibly-undefined string. -/
def jsInterp : Option String → String
  | some s => s
  | none => "undefined"

/-- The text of one structural element as concatenated by the resource's
extraction loop (identical traversal to `read-doc-advanced`'s text path). -/
def elementText (el : StructuralElement) : String :=
  String.join (elementRunTexts el)

/-- Body of the `get-doc` resource: a `Document:` header, then — only when
`document.body` and `document.body.content` are truthy — the concatenated
text-run contents. -/
def getDocContent (doc : Document) : String :=
  let header := "Document: " ++ jsInterp doc.title ++ "\n\n"
  match doc.body with
  | none => header
  | some b =>
    match b.content with
    | none => header
    | some els => header ++ String.join (els.map elementText)

/-- The `get-doc` resource handler: fetch then extract; the `catch` branch
returns an error text (resources carry no `isError` flag, only text). -/
def getDocResource (st : Store) (docId : String) : List StoreCall × String :=
  match st.getDoc docId with
  | .error e => ([.get docId], "Error getting document " ++ docId ++ ": " ++ e)
  | .ok doc => ([.get docId], getDocContent doc)

/-! ## The formatting layer (src/tools/formatting-tools.ts)

The formatting tools' source is embedded in `src/README.md` after the
document separator (lines 294-727): `apply-text-style`,
`apply-paragraph-style` and `apply-list-style`.  The definitions below
embed its text search, its list planning and its hex-color conversion. -/

/-- The `(startIndex, content)` pairs of the text runs one structural
element contributes to the search loop (README.md lines 343-362: the
nested loops guarded by `element.paragraph && element.paragraph.elements`
and `textElement.textRun && textElement.textRun.content`, reading
`textElement.startIndex || 0`); absent and empty contents are falsy and
skipped. -/
def elementRuns (el : StructuralElement) : List (Nat × String) :=
  match el.paragraph with
  | none => []
  | some p =>
    p.elements.filterMap fun pe =>
      match pe.textRun with
      | none => none
      | some tr =>
        match tr.content with
        | none => none
        | some c => if c = "" then none else some (pe.startIndex.getD 0, c)

/-- All searched runs of the document in document order.  The search's
nested loops with their double early `break` visit exactly this sequence
front to back, stopping at the first hit. -/
def docRuns (doc : Document) : List (Nat × String) :=
  ((bodyElements doc).map elementRuns).flatten

/-- Index of the first occurrence of `s` in `t` (JS `indexOf`; `none`
stands for `-1`).  `content.includes(textToFind)` is
`(firstIdx ..).isSome`. -/
def firstIdx (s : List Char) : List Char → Option Nat
  | [] => if s = [] then some 0 else none
  | c :: rest =>
    if s.isPrefixOf (c :: rest) then some 0
    else (firstIdx s rest).map (· + 1)

/-- The text-search loop of `apply-text-style` / `apply-list-style`
(README.md lines 341-367 and 631-657): scan runs in order; each run whose
content contains the target counts as one instance (however many times
the target occurs inside it); when the running count reaches
`matchInstance`, return the range
`[startIndex + indexOf, startIndex + indexOf + target.length)` built from
the run's API `startIndex` and the first occurrence inside the run. -/
def findTextAux (target : List Char) (matchInstance : Nat) :
    List (Nat × String) → Nat → Option (Nat × Nat)
  | [], _ => none
  | r :: rest, count =>
    match firstIdx target r.2.data with
    | some i =>
      if count + 1 = matchInstance then
        some (r.1 + i, r.1 + i + target.length)
      else findTextAux target matchInstance rest (count + 1)
    | none => findTextAux target matchInstance rest count

/-- The resolver: find the `matchInstance`-th matching run of the target
in the fetched document; `none` is the distinct not-found result (the
tool throws `Could not find instance ...`). -/
def findTextInDocument (doc : Document) (target : String)
    (matchInstance : Nat) : Option (Nat × Nat) :=
  findTextAux target.data matchInstance (docRuns doc) 0

/-- The number of text runs whose content contains the target: the
code's instance total (one per matching run, not one per occurrence). -/
def runMatches (doc : Document) (target : String) : Nat :=
  (docRuns doc).countP fun r => (firstIdx target.data r.2.data).isSome

/-- Number of occurrences of `s` in `t`: the number of starting positions
at which `s` occurs as a substring. -/
def countOcc (s : List Char) : List Char → Nat
  | [] => 0
  | c :: rest =>
    (if s.isPrefixOf (c :: rest) then 1 else 0) + countOcc s rest

/-- Number of substring occurrences of the target over the document's
runs (the `n` of the spec's "appearing exactly n times"). -/
def docOccurrences (doc : Document) (target : String) : Nat :=
  ((runTexts doc).map fun t => countOcc target.data t.data).sum

/-- The store's offset invariant on the fetched tree (spec §3: runs carry
start offsets within `[1, documentLength)`), under which resolved ranges
are in-document. -/
def wellIndexed (doc : Document) : Prop :=
  ∀ r ∈ docRuns doc, 1 ≤ r.1 ∧ r.1 + r.2.length ≤ documentLength doc

/-! ## Mutation Planner: list styles (apply-list-style, README.md lines 611-726) -/

/-- The closed list-kind enumeration (`types.ts`: `ListType`). -/
inductive ListType where
  | bullet
  | numbered
  | alpha
  | roman
  deriving Repr, DecidableEq

/-- The enum value's wire name, as interpolated into messages. -/
def listTypeName : ListType → String
  | .bullet => "BULLET"
  | .numbered => "NUMBERED"
  | .alpha => "ALPHA"
  | .roman => "ROMAN"

/-- The code's `glyphTypeMap` (README.md lines 664-669); the
`|| 'GLYPH_TYPE_UNSPECIFIED'` fallback is dead because `listType` is
enum-validated. -/
def listPreset : ListType → String
  | .bullet => "GLYPH_TYPE_UNSPECIFIED"
  | .numbered => "DECIMAL"
  | .alpha => "ALPHA"
  | .roman => "ROMAN"

/-- The request list `apply-list-style` builds (README.md lines 671-698):
indentation (`indentLevel * 36` points, zero first-line indent) then the
bullet preset; for `listType === 'NUMBERED' && startNumber > 1` a third,
empty `updateListProperties` request is pushed. -/
def planListStyle (startIndex endIndex : Nat) (listType : ListType)
    (indentLevel startNumber : Nat) : List Request :=
  let base : List Request :=
    [.updateParagraphStyle startIndex endIndex (indentLevel * 36) 0,
     .createParagraphBullets startIndex endIndex (listPreset listType)]
  if listType = ListType.numbered ∧ 1 < startNumber then
    base ++ [.updateListProperties]
  else base

/-- Tool `apply-list-style` (README.md lines 612-726): fetch, search,
plan, submit one `batchUpdate`; a failed search throws before any
mutation is attempted. -/
def applyListStyle (st : Store) (docId textToFind : String)
    (matchInstance : Nat) (listType : ListType)
    (indentLevel startNumber : Nat) : List StoreCall × ToolResponse :=
  match st.getDoc docId with
  | .error e => ([.get docId], errResp ("Error applying list style: " ++ e))
  | .ok doc =>
    match findTextInDocument doc textToFind matchInstance with
    | none =>
      ([.get docId],
       errResp ("Error applying list style: Could not find instance " ++
         toString matchInstance ++ " of text \x22" ++ textToFind ++
         "\x22 in the document"))
    | some r =>
      let reqs := planListStyle r.1 r.2 listType indentLevel startNumber
      match st.batch docId reqs with
      | .error e =>
        ([.get docId, .batchUpdate docId reqs],
         errResp ("Error applying list style: " ++ e))
      | .ok _ =>
        ([.get docId, .batchUpdate docId reqs],
         okResp ("List style applied successfully!\nDocument ID: " ++ docId ++
           "\nText: \x22" ++ textToFind ++ "\x22\nList type: " ++
           listTypeName listType ++ "\nIndent level: " ++
           toString indentLevel ++ "\nStarting number: " ++
           toString startNumber ++ "\nRange: " ++ toString r.1 ++ "-" ++
           toString r.2))

/-! ## Hex color conversion (apply-text-style, README.md lines 404-420)

The code runs `hex = color.replace('#', '')`, then per channel
`parseInt(hex.substr(i, 2), 16) / 255`; `parseInt` parses a maximal
hex-digit prefix (after optional whitespace, sign and `0x`) and yields
`NaN` when there is none, and NaN fractions flow silently into the
request.  JavaScript numbers are modelled as `Option ℚ` with `none` for
`NaN`. -/

/-- Value of one hexadecimal digit character. -/
def hexDigitVal (c : Char) : Option Nat :=
  match c with
  | 'F' => some 15
  | 'f' => some 15
  | 'E' => some 14
  | 'e' => some 14
  | 'D' => some 13
  | 'd' => some 13
  | 'C' => some 12
  | 'c' => some 12
  | 'B' => some 11
  | 'b' => some 11
  | 'A' => some 10
  | 'a' => some 10
  | '9' => some 9
  | '8' => some 8
  | '7' => some 7
  | '6' => some 6
  | '5' => some 5
  | '4' => some 4
  | '3' => some 3
  | '2' => some 2
  | '1' => some 1
  | '0' => some 0
  | _ => none

/-- JS `replace('#', '')`: remove the first occurrence of `#`. -/
def replaceFirstHash : List Char → List Char
  | [] => []
  | c :: rest => if c = '#' then rest else c :: replaceFirstHash rest

/-- Accumulate the maximal hex-digit prefix (ECMAScript `parseInt` keeps
consuming digits and stops at the first non-digit). -/
def hexAcc (acc : Nat) : List Char → Nat
  | [] => acc
  | c :: rest =>
    match hexDigitVal c with
    | some v => hexAcc (16 * acc + v) rest
    | none => acc

/-- Value of a maximal nonempty hex-digit prefix; `none` when the string
starts with a non-digit (NaN). -/
def hexPrefixVal : List Char → Option Nat
  | [] => none
  | c :: rest =>
    match hexDigitVal c with
    | some v => some (hexAcc v rest)
    | none => none

/-- Strip an optional `0x`/`0X` prefix (radix-16 `parseInt`). -/
def strip0x (s : List Char) : List Char :=
  match s with
  | a :: b :: rest => if a = '0' ∧ (b = 'x' ∨ b = 'X') then rest else s
  | _ => s

/-- ECMAScript `parseInt(s, 16)`: trim leading whitespace, optional sign,
optional `0x`, then a maximal nonempty hex-digit prefix; `none` is NaN. -/
def parseIntHex (s : List Char) : Option Int :=
  match s.dropWhile Char.isWhitespace with
  | [] => none
  | c :: rest =>
    if c = '-' then (hexPrefixVal (strip0x rest)).map fun n => -(n : Int)
    else if c = '+' then (hexPrefixVal (strip0x rest)).map fun n => (n : Int)
    else (hexPrefixVal (strip0x (c :: rest))).map fun n => (n : Int)

/-- One channel's `/ 255` normalization of a parsed integer. -/
def byteFracOfInt (n : Int) : ℚ :=
  (n : ℚ) / 255

/-- The source's conversion (README.md lines 406-409): remove the first
`#`, `parseInt` the three 2-character slices, divide by 255.  A malformed
input yields `none` (NaN) components — silently, with no error. -/
def jsHexToRgb (s : String) : Option ℚ × Option ℚ × Option ℚ :=
  let hex := replaceFirstHash s.data
  ((parseIntHex (hex.take 2)).map byteFracOfInt,
   (parseIntHex ((hex.drop 2).take 2)).map byteFracOfInt,
   (parseIntHex ((hex.drop 4).take 2)).map byteFracOfInt)

/-- The well-formed `#RRGGBB` shape, as an exact parser.  It is used to
characterize well-formed inputs in the statements below; the source's
actual conversion is `jsHexToRgb`. -/
def hexToRgb (s : String) : Option (ℚ × ℚ × ℚ) :=
  match s.data with
  | ['#', r1, r2, g1, g2, b1, b2] => do
    let vr1 ← hexDigitVal r1
    let vr2 ← hexDigitVal r2
    let vg1 ← hexDigitVal g1
    let vg2 ← hexDigitVal g2
    let vb1 ← hexDigitVal b1
    let vb2 ← hexDigitVal b2
    pure (((16 * vr1 + vr2 : ℕ) : ℚ) / 255,
          ((16 * vg1 + vg2 : ℕ) : ℚ) / 255,
          ((16 * vb1 + vb2 : ℕ) : ℚ) / 255)
  | _ => none

/-- The hex character of one digit value (values above 15 cannot arise
from a byte split). -/
def hexChar (n : Nat) : Char :=
  match n with
  | 0 => '0'
  | 1 => '1'
  | 2 => '2'
  | 3 => '3'
  | 4 => '4'
  | 5 => '5'
  | 6 => '6'
  | 7 => '7'
  | 8 => '8'
  | 9 => '9'
  | 10 => 'a'
  | 11 => 'b'
  | 12 => 'c'
  | 13 => 'd'
  | 14 => 'e'
  | _ => 'f'

/-- Two-digit hex rendering of a byte. -/
def toHexByte (n : Nat) : List Char :=
  [hexChar (n / 16), hexChar (n % 16)]

/-- The byte behind a normalized fraction `v/255`. -/
def ratByte (q : ℚ) : Nat :=
  (q * 255).num.toNat

/-- Canonical hex rendering of a normalized RGB triple, used to state that
the conversion is idempotent (re-converting a converted color changes
nothing). -/
def rgbToHex (c : ℚ × ℚ × ℚ) : String :=
  ⟨'#' :: (toHexByte (ratByte c.1) ++ toHexByte (ratByte c.2.1) ++ toHexByte (ratByte c.2.2))⟩

/-! ## Concrete instances used by witnesses -/

/-- A document whose body is one paragraph with a single run
`"Hello World. Hello Moon."`. -/
def sampleDoc : Document :=
  { title := some "Sample"
    body := some
      { content := some [
          { paragraph := some
              { paragraphStyle := none
                elements := [
                  { startIndex := some 1
                    textRun := some
                      { content := some "Hello World. Hello Moon.", textStyle := none } }] } }] } }

/-- A store that always succeeds, returning `doc` on every fetch. -/
def okStore (doc : Document) : Store :=
  { getDoc := fun _ => .ok doc
    batch := fun _ _ => .ok ()
    createRes := fun _ => .ok (some "newdoc") }

/-- A store whose every call fails with the message `"boom"`. -/
def failStore : Store :=
  { getDoc := fun _ => .error "boom"
    batch := fun _ _ => .error "boom"
    createRes := fun _ => .error "boom" }

/-- A document with an absent or empty body, in the three shapes the
handlers' truthiness checks distinguish. -/
def emptyBody (doc : Document) : Prop :=
  doc.body = none ∨ doc.body = some { content := none } ∨
    doc.body = some { content := some [] }

/-- A document with no body at all. -/
def noBodyDoc : Document := { title := some "Empty", body := none }

/-! ## Theorems -/

/-- C1: for every `update-doc` call with `replaceAll = true` (on a
non-empty document id, with the store fetch succeeding), the mutation
submitted to the store is a single atomic `batchUpdate` containing exactly
two operations in order — first a delete of `[1, documentLength)` where
`documentLength` is freshly computed from the document just fetched, then
an insert of the new content at offset 1. -/
theorem updateDoc_replaceAll_trace (st : Store) (docId content : String)
    (doc : Document) (hid : docId ≠ "") (hget : st.getDoc docId = .ok doc) :
    (updateDoc st docId content true).1 =
      [.get docId, .batchUpdate docId
        [.deleteContentRange 1 (documentLength doc), .insertText 1 content]] := by
  rcases hbt : st.batch docId
      [.deleteContentRange 1 (documentLength doc), .insertText 1 content] with e | u <;>
    simp [updateDoc, hid, hget, hbt]

/-- C1 witness. -/
theorem updateDoc_replaceAll_trace_witness :
    (updateDoc (okStore sampleDoc) "doc1" "new text" true).1 =
      [.get "doc1", .batchUpdate "doc1"
        [.deleteContentRange 1 (documentLength sampleDoc), .insertText 1 "new text"]] :=
  updateDoc_replaceAll_trace (okStore sampleDoc) "doc1" "new text" sampleDoc
    (by decide) rfl

/-- C2: for every `update-doc` call with `replaceAll = false` (append), the
document length is recomputed from the fresh fetch made by this very call
— 1 plus the sum of the character lengths of all text runs — and exactly
one `insertText` at that offset (and no delete) is submitted, as the single
`batchUpdate` of the call. -/
theorem updateDoc_append_trace (st : Store) (docId content : String)
    (doc : Document) (hid : docId ≠ "") (hget : st.getDoc docId = .ok doc) :
    (updateDoc st docId content false).1 =
      [.get docId, .batchUpdate docId [.insertText (documentLength doc) content]] ∧
    documentLength doc = 1 + ((runTexts doc).map String.length).sum := by
  refine ⟨?_, rfl⟩
  rcases hbt : st.batch docId [.insertText (documentLength doc) content] with e | u <;>
    simp [updateDoc, hid, hget, hbt]

/-- C2 witness. -/
theorem updateDoc_append_trace_witness :
    (updateDoc (okStore sampleDoc) "doc1" " more" false).1 =
      [.get "doc1", .batchUpdate "doc1"
        [.insertText (documentLength sampleDoc) " more"]] ∧
    documentLength sampleDoc = 1 + ((runTexts sampleDoc).map String.length).sum :=
  updateDoc_append_trace (okStore sampleDoc) "doc1" " more" sampleDoc (by decide) rfl

/-- C3: `delete-range` with `endIndex ≤ startIndex` returns the
invalid-range error result and makes no store call; with
`endIndex > startIndex` it submits exactly one `batchUpdate` holding a
single `deleteContentRange` over `[startIndex, endIndex)`. -/
theorem deleteRange_spec (st : Store) (docId : String) (s e : Nat) :
    (e ≤ s →
      (deleteRange st docId s e).1 = [] ∧
      (deleteRange st docId s e).2 =
        errResp "Error deleting range: End index must be greater than start index for deletion") ∧
    (s < e →
      (deleteRange st docId s e).1 =
        [.batchUpdate docId [.deleteContentRange s e]]) := by
  constructor
  · intro h
    unfold deleteRange
    rw [if_pos h]
    exact ⟨rfl, rfl⟩
  · intro h
    rcases hbt : st.batch docId [.deleteContentRange s e] with e' | u <;>
      simp [deleteRange, Nat.not_le.mpr h, hbt]

/-- C3 witness: the spec's scenario `delete-range(start=10, end=5)` plus a
valid range. -/
theorem deleteRange_spec_witness :
    ((deleteRange failStore "doc1" 10 5).1 = [] ∧
      (deleteRange failStore "doc1" 10 5).2 =
        errResp "Error deleting range: End index must be greater than start index for deletion") ∧
    (deleteRange (okStore sampleDoc) "doc1" 5 10).1 =
      [.batchUpdate "doc1" [.deleteContentRange 5 10]] :=
  ⟨(deleteRange_spec failStore "doc1" 10 5).1 (by omega),
   (deleteRange_spec (okStore sampleDoc) "doc1" 5 10).2 (by omega)⟩

/-- C10: for every `create-doc` call whose creation succeeds with a
document id, an `insertText` mutation of the given content at index 1 is
submitted if and only if the (defaulted) `content` parameter is non-empty;
with absent or empty content only the creation call is made. -/
theorem createDoc_content_iff (st : Store) (title content docId : String)
    (hc : st.createRes title = .ok (some docId)) :
    (StoreCall.batchUpdate docId [Request.insertText 1 content] ∈
        (createDoc st title content).1 ↔ content ≠ "") ∧
    (content = "" → (createDoc st title content).1 = [.create title]) ∧
    (content ≠ "" → (createDoc st title content).1 =
      [.create title, .batchUpdate docId [.insertText 1 content]]) := by
  have htrace : ∀ h : content ≠ "",
      (createDoc st title content).1 =
        [.create title, .batchUpdate docId [.insertText 1 content]] := by
    intro h
    rcases hbt : st.batch docId [.insertText 1 content] with e | u <;>
      simp [createDoc, hc, h, hbt]
  have hempty : content = "" → (createDoc st title content).1 = [.create title] := by
    intro h
    simp [createDoc, hc, h]
  refine ⟨?_, hempty, htrace⟩
  constructor
  · intro hmem
    intro hcon
    rw [hempty hcon] at hmem
    simp at hmem
  · intro h
    rw [htrace h]
    simp

/-- C10 witness. -/
theorem createDoc_content_iff_witness :
    (StoreCall.batchUpdate "newdoc" [Request.insertText 1 "hello"] ∈
        (createDoc (okStore sampleDoc) "T" "hello").1 ↔ ("hello" : String) ≠ "") ∧
    (("hello" : String) = "" → (createDoc (okStore sampleDoc) "T" "hello").1 = [.create "T"]) ∧
    (("hello" : String) ≠ "" → (createDoc (okStore sampleDoc) "T" "hello").1 =
      [.create "T", .batchUpdate "newdoc" [.insertText 1 "hello"]]) :=
  createDoc_content_iff (okStore sampleDoc) "T" "hello" "newdoc" rfl

/-- C6: every store failure during a tool invocation is recovered at the
tool boundary into a structured failure result (`isError` set via
`errResp`) carrying the store's message, never swallowed and — the
handlers being total functions into `ToolResponse` — never escaping as an
unhandled fault. -/
theorem toolErrors_recovered (st : Store) (docId content txt title : String)
    (replaceAll : Bool) (idx s e : Nat) (doc : Document) (msg : String)
    (tf : String) (kk lvl sn : Nat) (lt : ListType) (rng : Nat × Nat) :
    (docId ≠ "" → st.getDoc docId = .error msg →
      (updateDoc st docId content replaceAll).2 =
        errResp ("Error updating document: " ++ msg)) ∧
    (docId ≠ "" → st.getDoc docId = .ok doc →
      st.batch docId [.deleteContentRange 1 (documentLength doc), .insertText 1 content] =
        .error msg →
      (updateDoc st docId content true).2 =
        errResp ("Error updating document: " ++ msg)) ∧
    (st.batch docId [.insertText idx txt] = .error msg →
      (insertTextAtIndex st docId txt idx).2 =
        errResp ("Error inserting text: " ++ msg)) ∧
    (s < e → st.batch docId [.deleteContentRange s e] = .error msg →
      (deleteRange st docId s e).2 = errResp ("Error deleting range: " ++ msg)) ∧
    (st.createRes title = .error msg →
      (createDoc st title content).2 = errResp ("Error creating document: " ++ msg)) ∧
    (st.getDoc docId = .error msg →
      (readDocAdvancedText st docId none).2 =
        errResp ("Error reading document: " ++ msg)) ∧
    (st.getDoc docId = .error msg →
      (applyListStyle st docId tf kk lt lvl sn).2 =
        errResp ("Error applying list style: " ++ msg)) ∧
    (st.getDoc docId = .ok doc → findTextInDocument doc tf kk = some rng →
      st.batch docId (planListStyle rng.1 rng.2 lt lvl sn) = .error msg →
      (applyListStyle st docId tf kk lt lvl sn).2 =
        errResp ("Error applying list style: " ++ msg)) := by
  refine ⟨?_, ?_, ?_, ?_, ?_, ?_, ?_, ?_⟩
  · intro hid hget
    cases replaceAll <;> simp [updateDoc, hid, hget]
  · intro hid hget hbatch
    simp [updateDoc, hid, hget, hbatch]
  · intro hbatch
    simp [insertTextAtIndex, hbatch]
  · intro hr hbatch
    simp [deleteRange, Nat.not_le.mpr hr, hbatch]
  · intro hcreate
    simp [createDoc, hcreate]
  · intro hget
    simp [readDocAdvancedText, hget]
  · intro hget
    simp [applyListStyle, hget]
  · intro hget hfind hbatch
    simp [applyListStyle, hget, hfind, hbatch]

/-- C6 witness: the all-failing store. -/
theorem toolErrors_recovered_witness :
    (updateDoc failStore "doc1" "c" true).2 = errResp "Error updating document: boom" ∧
    (insertTextAtIndex failStore "doc1" "t" 3).2 = errResp "Error inserting text: boom" ∧
    (deleteRange failStore "doc1" 2 7).2 = errResp "Error deleting range: boom" ∧
    (createDoc failStore "T" "c").2 = errResp "Error creating document: boom" ∧
    (readDocAdvancedText failStore "doc1" none).2 = errResp "Error reading document: boom" ∧
    (applyListStyle failStore "doc1" "x" 1 ListType.bullet 0 1).2 =
      errResp "Error applying list style: boom" :=
  have h := toolErrors_recovered failStore "doc1" "c" "t" "T" true 3 2 7 sampleDoc "boom"
    "x" 1 0 1 ListType.bullet (0, 0)
  ⟨h.1 (by decide) rfl, h.2.2.1 rfl, h.2.2.2.1 (by omega) rfl, h.2.2.2.2.1 rfl,
   h.2.2.2.2.2.1 rfl, h.2.2.2.2.2.2.1 rfl⟩

/-- C5: a document with an absent body, an absent body-content list, or an
empty body-content list yields the empty fragment sequence everywhere
content is read — document length 1, empty extracted text, empty markdown,
an empty searched-run sequence — and the reading operations return
ordinary (non-error) results rather than failing. -/
theorem emptyBody_reads (st : Store) (doc : Document) (docId : String)
    (maxLength : Option Nat) (h : emptyBody doc) (hget : st.getDoc docId = .ok doc) :
    documentLength doc = 1 ∧ extractText doc = "" ∧ markdownRender doc = "" ∧
    docRuns doc = [] ∧
    (readDocAdvancedText st docId maxLength).2 =
      okResp "Content (0 characters):\n---\n" ∧
    (readDocAdvancedMarkdown st docId maxLength).2 = okResp "" ∧
    (getDocResource st docId).2 = "Document: " ++ jsInterp doc.title ++ "\n\n" := by
  obtain ⟨t, b⟩ := doc
  have hrt : runTexts ⟨t, b⟩ = [] := by
    rcases h with h | h | h <;> simp only [Document.mk.injEq] at h <;>
      simp [runTexts, bodyElements, h]
  have hlen : documentLength ⟨t, b⟩ = 1 := by simp [documentLength, hrt]
  have hext : extractText ⟨t, b⟩ = "" := by simp [extractText, hrt, String.join]
  have hmd : markdownRender ⟨t, b⟩ = "" := by
    rcases h with h | h | h <;> simp only [Document.mk.injEq] at h <;>
      (simp [markdownRender, bodyElements, h, String.join]; decide)
  have hdr : docRuns ⟨t, b⟩ = [] := by
    rcases h with h | h | h <;> simp only [Document.mk.injEq] at h <;>
      simp [docRuns, bodyElements, h]
  have htxt : textFormatOutput "" maxLength = "Content (0 characters):\n---\n" := by
    have hc : ¬(jsTruthy maxLength = true ∧ maxLength.getD 0 < ("" : String).length) := by
      rintro ⟨-, hlt⟩
      simp at hlt
    unfold textFormatOutput
    rw [if_neg hc]
    decide
  have hmdo : markdownFormatOutput "" maxLength = "" := by
    have hc : ¬(jsTruthy maxLength = true ∧ maxLength.getD 0 < ("" : String).length) := by
      rintro ⟨-, hlt⟩
      simp at hlt
    unfold markdownFormatOutput
    rw [if_neg hc]
  refine ⟨hlen, hext, hmd, hdr, ?_, ?_, ?_⟩
  · simp only [readDocAdvancedText, hget, hext, htxt]
  · simp only [readDocAdvancedMarkdown, hget, hmd, hmdo]
  · rcases h with h | h | h <;> simp only [Document.mk.injEq] at h <;>
      simp [getDocResource, hget, getDocContent, h, String.join]

/-- C5 witness: the bodyless document. -/
theorem emptyBody_reads_witness :
    documentLength noBodyDoc = 1 ∧ extractText noBodyDoc = "" ∧
    markdownRender noBodyDoc = "" ∧ docRuns noBodyDoc = [] ∧
    (readDocAdvancedText (okStore noBodyDoc) "doc1" (some 100)).2 =
      okResp "Content (0 characters):\n---\n" ∧
    (readDocAdvancedMarkdown (okStore noBodyDoc) "doc1" (some 100)).2 = okResp "" ∧
    (getDocResource (okStore noBodyDoc) "doc1").2 =
      "Document: " ++ jsInterp noBodyDoc.title ++ "\n\n" :=
  emptyBody_reads (okStore noBodyDoc) noBodyDoc "doc1" (some 100) (Or.inl rfl) rfl

/-- C7 counterexample: for a numbered list with starting number 2, the
code pushes a third (empty `updateListProperties`) request, so planning
does not emit exactly two operations for every list-style intent. -/
theorem planListStyle_three_ops_cex :
    planListStyle 1 6 ListType.numbered 0 2 =
      [.updateParagraphStyle 1 6 0 0,
       .createParagraphBullets 1 6 "DECIMAL",
       .updateListProperties] ∧
    (planListStyle 1 6 ListType.numbered 0 2).length = 3 ∧
    (planListStyle 1 6 ListType.numbered 0 2).length ≠ 2 :=
  ⟨by decide, by decide, by decide⟩

/-- C7 (amended): for every list-style intent except a numbered list with
a starting number above 1, planning emits exactly the two operations in
fixed order — paragraph indentation of 36 points per requested level with
zero first-line indent, then the bullet-preset operation mapping the
requested kind through the code's glyph-type map; a numbered list with
starting number above 1 gets a third, empty `updateListProperties`
request appended after those two. -/
theorem planListStyle_spec (s e : Nat) (lt : ListType) (lvl n : Nat) :
    (¬(lt = ListType.numbered ∧ 1 < n) →
      planListStyle s e lt lvl n =
        [.updateParagraphStyle s e (lvl * 36) 0,
         .createParagraphBullets s e (listPreset lt)]) ∧
    (lt = ListType.numbered → 1 < n →
      planListStyle s e lt lvl n =
        [.updateParagraphStyle s e (lvl * 36) 0,
         .createParagraphBullets s e (listPreset lt),
         .updateListProperties]) ∧
    listPreset ListType.bullet = "GLYPH_TYPE_UNSPECIFIED" ∧
    listPreset ListType.numbered = "DECIMAL" ∧
    listPreset ListType.alpha = "ALPHA" ∧
    listPreset ListType.roman = "ROMAN" := by
  refine ⟨?_, ?_, rfl, rfl, rfl, rfl⟩
  · intro h
    simp [planListStyle, h]
  · intro h1 h2
    simp [planListStyle, h1, h2]

/-- C7 witness: both branches at concrete intents. -/
theorem planListStyle_spec_witness :
    planListStyle 3 9 ListType.bullet 1 1 =
      [.updateParagraphStyle 3 9 (1 * 36) 0,
       .createParagraphBullets 3 9 (listPreset ListType.bullet)] ∧
    planListStyle 3 9 ListType.numbered 1 5 =
      [.updateParagraphStyle 3 9 (1 * 36) 0,
       .createParagraphBullets 3 9 (listPreset ListType.numbered),
       .updateListProperties] :=
  ⟨(planListStyle_spec 3 9 ListType.bullet 1 1).1 (by decide),
   (planListStyle_spec 3 9 ListType.numbered 1 5).2.1 rfl (by omega)⟩

/-- C9 counterexample: with `maxLength = 0` (a supplied limit, and content
strictly longer than it) the text-format output is the full untruncated
rendering with no truncation notice — not the first 0 characters followed
by a truncation notice, as the claim requires for every supplied
`maxLength`. -/
theorem textFormatOutput_maxLength_zero_cex :
    0 < ("ab" : String).length ∧
    textFormatOutput "ab" (some 0) = "Content (2 characters):\n---\nab" ∧
    textFormatOutput "ab" (some 0) ≠
      "Content (truncated to 0 chars of 2 total):\n---\n" ++ ("ab" : String).take 0 ++
        "\n\n... [Document continues for 2 more characters]" := by
  refine ⟨by decide, by decide, by decide⟩

/-- C9 (amended to positive `maxLength`): in each format, content strictly
longer than `maxLength` is returned as exactly its first `maxLength`
characters inside that format's truncation message (which states the total
character count), and content not longer than `maxLength` is returned in
full, untruncated. -/
theorem format_truncation_spec (render : String) (m : Nat) (hm : 0 < m) :
    (m < render.length →
      jsonFormatOutput render (some m) =
        render.take m ++ "\n... [JSON truncated: " ++ toString render.length ++
          " total chars]" ∧
      markdownFormatOutput render (some m) =
        render.take m ++ "\n\n... [Markdown truncated: " ++ toString render.length ++
          " total chars]" ∧
      textFormatOutput render (some m) =
        "Content (truncated to " ++ toString m ++ " chars of " ++
          toString render.length ++ " total):\n---\n" ++ render.take m ++
          "\n\n... [Document continues for " ++ toString (render.length - m) ++
          " more characters]") ∧
    (render.length ≤ m →
      jsonFormatOutput render (some m) = render ∧
      markdownFormatOutput render (some m) = render ∧
      textFormatOutput render (some m) =
        "Content (" ++ toString render.length ++ " characters):\n---\n" ++ render) := by
  have htr : jsTruthy (some m) = true := by
    simp [jsTruthy, Nat.pos_iff_ne_zero.mp hm]
  constructor
  · intro h
    refine ⟨?_, ?_, ?_⟩ <;>
      simp [jsonFormatOutput, markdownFormatOutput, textFormatOutput, htr, h]
  · intro h
    refine ⟨?_, ?_, ?_⟩ <;>
      simp [jsonFormatOutput, markdownFormatOutput, textFormatOutput, htr,
        Nat.not_lt.mpr h]

/-- C9 witness. -/
theorem format_truncation_spec_witness :
    textFormatOutput "abcdef" (some 3) =
      "Content (truncated to " ++ toString 3 ++ " chars of " ++
        toString ("abcdef" : String).length ++ " total):\n---\n" ++
        ("abcdef" : String).take 3 ++ "\n\n... [Document continues for " ++
        toString (("abcdef" : String).length - 3) ++ " more characters]" ∧
    jsonFormatOutput "ab" (some 3) = "ab" :=
  ⟨((format_truncation_spec "abcdef" 3 (by decide)).1 (by decide)).2.2,
   ((format_truncation_spec "ab" 3 (by decide)).2 (by decide)).1⟩

/-! ### Anchor-resolver lemmas (C4) -/

/-- A found first index is in bounds. -/
theorem firstIdx_bound (s : List Char) :
    ∀ (t : List Char) (i : Nat), firstIdx s t = some i → i + s.length ≤ t.length := by
  intro t
  induction t with
  | nil =>
    intro i h
    rw [firstIdx] at h
    split at h
    · simp_all
    · exact absurd h (by simp)
  | cons c rest ih =>
    intro i h
    rw [firstIdx] at h
    by_cases hp : s.isPrefixOf (c :: rest)
    · rw [if_pos hp] at h
      obtain rfl : (0 : Nat) = i := by simpa using h
      have := (List.isPrefixOf_iff_prefix.mp hp).length_le
      simpa using this
    · rw [if_neg hp] at h
      obtain ⟨j, hj, rfl⟩ := Option.map_eq_some'.mp h
      have := ih j hj
      simp only [List.length_cons]
      omega

/-- Requesting instance 0 never resolves (the running count starts at 1
when it first increments, and the code compares with `===`). -/
theorem findTextAux_zero (target : List Char) :
    ∀ (runs : List (Nat × String)) (count : Nat),
      findTextAux target 0 runs count = none := by
  intro runs
  induction runs with
  | nil => intro count; rfl
  | cons r rest ih =>
    intro count
    cases hfi : firstIdx target r.2.data with
    | some i => simp [findTextAux, hfi, ih]
    | none => simp [findTextAux, hfi, ih]

/-- Requesting an instance beyond the number of matching runs never
resolves. -/
theorem findTextAux_gt (target : List Char) (k : Nat) :
    ∀ (runs : List (Nat × String)) (count : Nat),
      runs.countP (fun r => (firstIdx target r.2.data).isSome) + count < k →
      findTextAux target k runs count = none := by
  intro runs
  induction runs with
  | nil => intro count _; rfl
  | cons r rest ih =>
    intro count h
    cases hfi : firstIdx target r.2.data with
    | some i =>
      simp only [List.countP_cons, hfi] at h
      simp only [findTextAux, hfi]
      rw [if_neg (by simp at h; omega)]
      exact ih _ (by simp at h; omega)
    | none =>
      simp only [List.countP_cons, hfi] at h
      simp only [findTextAux, hfi]
      exact ih _ (by simp at h; omega)

/-- Requesting an instance within the number of matching runs resolves to
an in-bounds range of the target's length. -/
theorem findTextAux_found (target : List Char) (hs : target ≠ []) (L : Nat) :
    ∀ (runs : List (Nat × String)) (count k : Nat),
      (∀ r ∈ runs, 1 ≤ r.1 ∧ r.1 + r.2.length ≤ L) →
      count < k →
      k ≤ count + runs.countP (fun r => (firstIdx target r.2.data).isSome) →
      ∃ a b, findTextAux target k runs count = some (a, b) ∧
        1 ≤ a ∧ a < b ∧ b = a + target.length ∧ b ≤ L := by
  intro runs
  induction runs with
  | nil =>
    intro count k _ hlt hle
    simp at hle
    omega
  | cons r rest ih =>
    intro count k hvalid hlt hle
    cases hfi : firstIdx target r.2.data with
    | some i =>
      simp only [List.countP_cons, hfi] at hle
      by_cases hk : count + 1 = k
      · have hv := hvalid r (List.mem_cons_self r rest)
        have hb := firstIdx_bound target r.2.data i hfi
        have hdl : r.2.data.length = r.2.length := rfl
        have hlen : 0 < target.length := List.length_pos.mpr hs
        refine ⟨r.1 + i, r.1 + i + target.length, ?_, by omega, by omega, rfl,
          by omega⟩
        simp only [findTextAux, hfi]
        rw [if_pos hk]
      · have hres := ih (count + 1) k
          (fun g hg => hvalid g (List.mem_cons_of_mem r hg)) (by omega)
          (by simp at hle; omega)
        simpa only [findTextAux, hfi, if_neg hk] using hres
    | none =>
      simp only [List.countP_cons, hfi] at hle
      have hres := ih count k
        (fun g hg => hvalid g (List.mem_cons_of_mem r hg)) hlt
        (by simp at hle; omega)
      simpa only [findTextAux, hfi] using hres

/-- C4 counterexample: in `sampleDoc` the target `"Hello"` occurs exactly
2 times (both inside one run), but the code counts one instance per text
run containing the target, so instance 2 is reported not found — and
`apply-list-style`, which shares the search loop, surfaces the failure —
although the claim requires a valid range for every `k` up to the
occurrence count. -/
theorem findText_per_occurrence_cex :
    docOccurrences sampleDoc "Hello" = 2 ∧
    findTextInDocument sampleDoc "Hello" 2 = none ∧
    (applyListStyle (okStore sampleDoc) "doc1" "Hello" 2
        ListType.bullet 0 1).2.isError = true :=
  ⟨by decide, by decide, by decide⟩

/-- C4 (amended): over any document whose runs carry store-consistent
start offsets, for a non-empty target contained in exactly `m` text runs
(`runMatches` — the code counts one instance per matching run and locates
the first occurrence inside it, so `m` can undercount the occurrence
count), the resolver returns a valid in-document range of the target's
length for every `1 ≤ k ≤ m`, and the distinct not-found result (`none`,
never an empty range) for `k < 1` or `k > m`. -/
theorem findText_spec (doc : Document) (target : String) (k : Nat)
    (hs : target ≠ "") (hw : wellIndexed doc) :
    (1 ≤ k → k ≤ runMatches doc target →
      ∃ a b, findTextInDocument doc target k = some (a, b) ∧
        1 ≤ a ∧ a < b ∧ b = a + target.length ∧ b ≤ documentLength doc) ∧
    (k < 1 → findTextInDocument doc target k = none) ∧
    (runMatches doc target < k → findTextInDocument doc target k = none) := by
  have hsd : target.data ≠ [] := by
    intro hd
    apply hs
    cases target with
    | mk d =>
      have hd' : d = [] := hd
      subst hd'
      rfl
  refine ⟨?_, ?_, ?_⟩
  · intro h1 hn
    exact findTextAux_found target.data hsd (documentLength doc) (docRuns doc) 0 k
      hw (by omega) (by simpa [runMatches] using hn)
  · intro h1
    have hz : k = 0 := by omega
    subst hz
    exact findTextAux_zero target.data (docRuns doc) 0
  · intro hn
    exact findTextAux_gt target.data k (docRuns doc) 0
      (by simpa [runMatches] using hn)

/-- C4 witness: `sampleDoc` has one matching run for `"Hello"`; instance
1 resolves to a valid range and instance 5 is not found. -/
theorem findText_spec_witness :
    (∃ a b, findTextInDocument sampleDoc "Hello" 1 = some (a, b) ∧
      1 ≤ a ∧ a < b ∧ b = a + ("Hello" : String).length ∧
      b ≤ documentLength sampleDoc) ∧
    findTextInDocument sampleDoc "Hello" 5 = none :=
  ⟨(findText_spec sampleDoc "Hello" 1 (by decide)
        (by unfold wellIndexed; decide)).1 (by omega) (by decide),
   (findText_spec sampleDoc "Hello" 5 (by decide)
        (by unfold wellIndexed; decide)).2.2 (by decide)⟩

/-! ### Hex color lemmas (C8) -/

/-- Hex digit values are at most 15. -/
theorem hexDigitVal_le (c : Char) (v : Nat) (h : hexDigitVal c = some v) :
    v ≤ 15 := by
  unfold hexDigitVal at h
  split at h <;> simp_all <;> omega

/-- The function `hexChar` inverts `hexDigitVal` on digit values. -/
theorem hexDigitVal_hexChar (v : Nat) (h : v ≤ 15) :
    hexDigitVal (hexChar v) = some v := by
  interval_cases v <;> rfl

/-- Extracting the byte back out of a normalized fraction. -/
theorem ratByte_div255 (n : Nat) : ratByte ((n : ℚ) / 255) = n := by
  unfold ratByte
  rw [div_mul_cancel₀ _ (by norm_num : (255 : ℚ) ≠ 0)]
  simp [Rat.num_natCast]

/-- A hex digit is not whitespace, a sign, or an `x`. -/
theorem hexDigit_not_special (c : Char) (v : Nat) (h : hexDigitVal c = some v) :
    c.isWhitespace = false ∧ c ≠ '-' ∧ c ≠ '+' ∧ c ≠ 'x' ∧ c ≠ 'X' := by
  unfold hexDigitVal at h
  split at h <;> first | decide | exact absurd h (by simp)

/-- Destructing a well-formed `#RRGGBB` parse. -/
theorem hexToRgb_parts (s : String) (r g b : ℚ)
    (h : hexToRgb s = some (r, g, b)) :
    ∃ c1 c2 c3 c4 c5 c6 v1 v2 v3 v4 v5 v6,
      s.data = ['#', c1, c2, c3, c4, c5, c6] ∧
      hexDigitVal c1 = some v1 ∧ hexDigitVal c2 = some v2 ∧
      hexDigitVal c3 = some v3 ∧ hexDigitVal c4 = some v4 ∧
      hexDigitVal c5 = some v5 ∧ hexDigitVal c6 = some v6 ∧
      r = ((16 * v1 + v2 : ℕ) : ℚ) / 255 ∧
      g = ((16 * v3 + v4 : ℕ) : ℚ) / 255 ∧
      b = ((16 * v5 + v6 : ℕ) : ℚ) / 255 := by
  unfold hexToRgb at h
  split at h
  case h_2 => exact absurd h (by simp)
  case h_1 c1 c2 c3 c4 c5 c6 heq =>
    simp only [Option.bind_eq_bind, Option.bind_eq_some, Option.pure_def,
      Option.some.injEq, Prod.mk.injEq] at h
    obtain ⟨v1, h1, v2, h2, v3, h3, v4, h4, v5, h5, v6, h6, hr, hg, hb⟩ := h
    exact ⟨c1, c2, c3, c4, c5, c6, v1, v2, v3, v4, v5, v6, heq, h1, h2, h3, h4,
      h5, h6, hr.symm, hg.symm, hb.symm⟩

/-- The fraction of a byte is in `[0, 1]`. -/
theorem byteFrac_range (n : Nat) (hn : n ≤ 255) :
    0 ≤ ((n : ℚ) / 255) ∧ ((n : ℚ) / 255) ≤ 1 := by
  constructor
  · positivity
  · rw [div_le_one (by norm_num)]
    exact_mod_cast hn

/-- Re-parsing the hex rendering of a well-formed parse reproduces it. -/
theorem hexToRgb_roundTrip (s : String) (r g b : ℚ)
    (h : hexToRgb s = some (r, g, b)) :
    hexToRgb (rgbToHex (r, g, b)) = some (r, g, b) := by
  obtain ⟨c1, c2, c3, c4, c5, c6, v1, v2, v3, v4, v5, v6, hdata,
    h1, h2, h3, h4, h5, h6, hr, hg, hb⟩ := hexToRgb_parts s r g b h
  have b1 : 16 * v1 + v2 ≤ 255 := by
    have := hexDigitVal_le _ _ h1
    have := hexDigitVal_le _ _ h2
    omega
  have b2 : 16 * v3 + v4 ≤ 255 := by
    have := hexDigitVal_le _ _ h3
    have := hexDigitVal_le _ _ h4
    omega
  have b3 : 16 * v5 + v6 ≤ 255 := by
    have := hexDigitVal_le _ _ h5
    have := hexDigitVal_le _ _ h6
    omega
  have round : ∀ n : Nat, n ≤ 255 →
      (toHexByte (ratByte ((n : ℚ) / 255)) =
        [hexChar (n / 16), hexChar (n % 16)] ∧
      hexDigitVal (hexChar (n / 16)) = some (n / 16) ∧
      hexDigitVal (hexChar (n % 16)) = some (n % 16)) := by
    intro n hn
    refine ⟨by rw [ratByte_div255]; rfl, ?_, ?_⟩
    · exact hexDigitVal_hexChar _ (by omega)
    · exact hexDigitVal_hexChar _ (by omega)
  subst hr hg hb
  obtain ⟨ht1, hd1, hd1'⟩ := round _ b1
  obtain ⟨ht2, hd2, hd2'⟩ := round _ b2
  obtain ⟨ht3, hd3, hd3'⟩ := round _ b3
  have hdata2 : (rgbToHex (((16 * v1 + v2 : ℕ) : ℚ) / 255,
      ((16 * v3 + v4 : ℕ) : ℚ) / 255, ((16 * v5 + v6 : ℕ) : ℚ) / 255)).data =
      ['#', hexChar ((16 * v1 + v2) / 16), hexChar ((16 * v1 + v2) % 16),
        hexChar ((16 * v3 + v4) / 16), hexChar ((16 * v3 + v4) % 16),
        hexChar ((16 * v5 + v6) / 16), hexChar ((16 * v5 + v6) % 16)] := by
    simp only [rgbToHex, ht1, ht2, ht3]
    rfl
  unfold hexToRgb
  rw [hdata2]
  simp only [hd1, hd1', hd2, hd2', hd3, hd3', Option.bind_eq_bind,
    Option.some_bind, Option.pure_def, Option.some.injEq, Prod.mk.injEq]
  refine ⟨?_, ?_, ?_⟩ <;> rw [Nat.div_add_mod]

/-- Anchor value `#FF0000`. -/
theorem hexToRgb_red : hexToRgb "#FF0000" = some (1, 0, 0) := by
  have h : hexToRgb "#FF0000" =
      some (((16 * 15 + 15 : ℕ) : ℚ) / 255, ((16 * 0 + 0 : ℕ) : ℚ) / 255,
        ((16 * 0 + 0 : ℕ) : ℚ) / 255) := rfl
  rw [h]
  norm_num

/-- Anchor value `#000000`. -/
theorem hexToRgb_black : hexToRgb "#000000" = some (0, 0, 0) := by
  have h : hexToRgb "#000000" =
      some (((16 * 0 + 0 : ℕ) : ℚ) / 255, ((16 * 0 + 0 : ℕ) : ℚ) / 255,
        ((16 * 0 + 0 : ℕ) : ℚ) / 255) := rfl
  rw [h]
  norm_num

/-- Anchor value `#00FF00` (the spec scenario color). -/
theorem hexToRgb_green : hexToRgb "#00FF00" = some (0, 1, 0) := by
  have h : hexToRgb "#00FF00" =
      some (((16 * 0 + 0 : ℕ) : ℚ) / 255, ((16 * 15 + 15 : ℕ) : ℚ) / 255,
        ((16 * 0 + 0 : ℕ) : ℚ) / 255) := rfl
  rw [h]
  norm_num

/-- `parseInt` of exactly two hex digits. -/
theorem parseIntHex_two (c1 c2 : Char) (v1 v2 : Nat)
    (h1 : hexDigitVal c1 = some v1) (h2 : hexDigitVal c2 = some v2) :
    parseIntHex [c1, c2] = some ((16 * v1 + v2 : ℕ) : Int) := by
  obtain ⟨hw1, hm1, hp1, hx1, hX1⟩ := hexDigit_not_special c1 v1 h1
  obtain ⟨hw2, hm2, hp2, hx2, hX2⟩ := hexDigit_not_special c2 v2 h2
  have hdw : ([c1, c2].dropWhile Char.isWhitespace) = [c1, c2] := by
    simp [List.dropWhile, hw1]
  have hstrip : strip0x [c1, c2] = [c1, c2] := by
    show (if c1 = '0' ∧ (c2 = 'x' ∨ c2 = 'X') then ([] : List Char)
      else [c1, c2]) = [c1, c2]
    rw [if_neg]
    rintro ⟨-, hx⟩
    rcases hx with hx | hx
    · exact hx2 hx
    · exact hX2 hx
  simp [parseIntHex, hdw, hm1, hp1, hstrip, hexPrefixVal, hexAcc, h1, h2]

/-- A well-formed `#RRGGBB` input drives the source's conversion to the
same fractions the exact parser produces. -/
theorem jsHexToRgb_of_wellFormed (s : String) (r g b : ℚ)
    (h : hexToRgb s = some (r, g, b)) :
    jsHexToRgb s = (some r, some g, some b) := by
  obtain ⟨c1, c2, c3, c4, c5, c6, v1, v2, v3, v4, v5, v6, hdata,
    h1, h2, h3, h4, h5, h6, hr, hg, hb⟩ := hexToRgb_parts s r g b h
  have hp1 := parseIntHex_two c1 c2 v1 v2 h1 h2
  have hp2 := parseIntHex_two c3 c4 v3 v4 h3 h4
  have hp3 := parseIntHex_two c5 c6 v5 v6 h5 h6
  subst hr hg hb
  have hrf : replaceFirstHash ['#', c1, c2, c3, c4, c5, c6] =
      [c1, c2, c3, c4, c5, c6] := by
    simp [replaceFirstHash]
  have ht1 : ([c1, c2, c3, c4, c5, c6].take 2) = [c1, c2] := rfl
  have ht2 : (([c1, c2, c3, c4, c5, c6].drop 2).take 2) = [c3, c4] := rfl
  have ht3 : (([c1, c2, c3, c4, c5, c6].drop 4).take 2) = [c5, c6] := rfl
  simp only [jsHexToRgb, hdata, hrf, ht1, ht2, ht3, hp1, hp2, hp3,
    Option.map_some', byteFracOfInt, Int.cast_natCast]

/-- C8 counterexample: a malformed color string is converted to NaN
fractions (`none`), silently — there is no rational component in `[0, 1]`
as the claim requires for every supplied color string; the exact parser
shows the input is not well-formed `#RRGGBB`. -/
theorem jsHexToRgb_malformed_cex :
    jsHexToRgb "#GGGGGG" = (none, none, none) ∧
    hexToRgb "#GGGGGG" = none ∧
    ¬∃ q : ℚ, (jsHexToRgb "#GGGGGG").1 = some q ∧ 0 ≤ q ∧ q ≤ 1 := by
  refine ⟨by decide, by decide, ?_⟩
  rintro ⟨q, hq, -, -⟩
  rw [show (jsHexToRgb "#GGGGGG").1 = none from by decide] at hq
  exact Option.noConfusion hq

/-- C8 (amended): for every well-formed `#RRGGBB` color string the
source's conversion yields normalized fractions each in `[0, 1]` —
`#FF0000 → (1, 0, 0)` and `#000000 → (0, 0, 0)` — and is idempotent:
re-converting the hex rendering of a converted color reproduces it
exactly.  (Malformed strings yield NaN components instead, see the
counterexample.) -/
theorem jsHexToRgb_spec (s : String) (r g b : ℚ) :
    (hexToRgb s = some (r, g, b) →
      jsHexToRgb s = (some r, some g, some b) ∧
      (0 ≤ r ∧ r ≤ 1 ∧ 0 ≤ g ∧ g ≤ 1 ∧ 0 ≤ b ∧ b ≤ 1) ∧
      jsHexToRgb (rgbToHex (r, g, b)) = (some r, some g, some b)) ∧
    jsHexToRgb "#FF0000" = (some 1, some 0, some 0) ∧
    jsHexToRgb "#000000" = (some 0, some 0, some 0) := by
  refine ⟨?_, jsHexToRgb_of_wellFormed _ _ _ _ hexToRgb_red,
    jsHexToRgb_of_wellFormed _ _ _ _ hexToRgb_black⟩
  intro h
  refine ⟨jsHexToRgb_of_wellFormed _ _ _ _ h, ?_,
    jsHexToRgb_of_wellFormed _ _ _ _ (hexToRgb_roundTrip s r g b h)⟩
  obtain ⟨c1, c2, c3, c4, c5, c6, v1, v2, v3, v4, v5, v6, hdata,
    h1, h2, h3, h4, h5, h6, hr, hg, hb⟩ := hexToRgb_parts s r g b h
  have b1 : 16 * v1 + v2 ≤ 255 := by
    have := hexDigitVal_le _ _ h1
    have := hexDigitVal_le _ _ h2
    omega
  have b2 : 16 * v3 + v4 ≤ 255 := by
    have := hexDigitVal_le _ _ h3
    have := hexDigitVal_le _ _ h4
    omega
  have b3 : 16 * v5 + v6 ≤ 255 := by
    have := hexDigitVal_le _ _ h5
    have := hexDigitVal_le _ _ h6
    omega
  subst hr hg hb
  exact ⟨(byteFrac_range _ b1).1, (byteFrac_range _ b1).2,
    (byteFrac_range _ b2).1, (byteFrac_range _ b2).2,
    (byteFrac_range _ b3).1, (byteFrac_range _ b3).2⟩

/-- C8 witness: the spec's `apply-text-style` scenario color `#00FF00`. -/
theorem jsHexToRgb_spec_witness :
    jsHexToRgb "#00FF00" = (some 0, some 1, some 0) ∧
    ((0 : ℚ) ≤ 0 ∧ (0 : ℚ) ≤ 1 ∧ (0 : ℚ) ≤ 1 ∧ (1 : ℚ) ≤ 1 ∧
      (0 : ℚ) ≤ 0 ∧ (0 : ℚ) ≤ 1) ∧
    jsHexToRgb (rgbToHex (0, 1, 0)) = (some 0, some 1, some 0) :=
  (jsHexToRgb_spec "#00FF00" 0 1 0).1 hexToRgb_green

end GDocs
